import Mathlib

/-!
Verification development for the kubewebproxy reverse proxy
(`src/kubewebproxy.go`).  The Go program is shallowly embedded: its pure
helper functions (`rewriteURL`, `rewriteRelativeLinks`, the `servicePattern`
routing, `proxy` / `proxyErrWrapper` error handling, `proxyRewriter`, and the
root-listing construction) are translated into executable Lean definitions,
together with the parts of the Go standard library they depend on
(`path.Clean`, `path.Join`, `path.Dir`, a subset of `net/url`,
`strconv.ParseInt`, and the media-type part of `mime.ParseMediaType`).
Strings are handled through their character lists (`String.data`) so that all
definitions compute by kernel reduction.
-/

namespace KubeWebProxy

/-! ## Go `path` package: `Clean`, `Join`, `Dir`

`path.Clean` is specified (and implemented, via its `lazybuf` loop) by the
four listed rules: collapse multiple slashes, drop `.` elements, drop a
non-`..` element followed by `..`, and drop `..` elements at the root of a
rooted path.  We implement it by splitting on `/` and processing the
segments against a stack, which is the standard functional reading of the
`lazybuf` loop (the `dotdot` marker corresponds to the run of leading `..`
segments kept at the bottom of the stack).  Several of Go's own
`path_test.go` vectors are checked below. -/

/-- Splits a character list on `/` (like `strings.Split(s, "/")`). -/
def splitSlash : List Char → List (List Char)
  | [] => [[]]
  | '/' :: rest => [] :: splitSlash rest
  | c :: rest =>
    match splitSlash rest with
    | s :: ss => (c :: s) :: ss
    | [] => [[c]]

/-- Joins segments with `/` between them (inverse of `splitSlash`). -/
def joinSlash : List (List Char) → List Char
  | [] => []
  | [s] => s
  | s :: rest => s ++ '/' :: joinSlash rest

/-- The segment-stack loop of Go `path.Clean`.  `acc` is the output stack in
reverse order (head = most recently emitted segment). -/
def cleanSegs (rooted : Bool) : List (List Char) → List (List Char) → List (List Char)
  | [], acc => acc.reverse
  | seg :: rest, acc =>
    if seg = [] ∨ seg = ['.'] then cleanSegs rooted rest acc
    else if seg = ['.', '.'] then
      match acc with
      | [] =>
        if rooted then cleanSegs rooted rest []
        else cleanSegs rooted rest [['.', '.']]
      | top :: accTail =>
        if rooted then cleanSegs rooted rest accTail
        else if top = ['.', '.'] then cleanSegs rooted rest (['.', '.'] :: top :: accTail)
        else cleanSegs rooted rest accTail
    else cleanSegs rooted rest (seg :: acc)

/-- Go `path.Clean` on character lists. -/
def goPathCleanChars (p : List Char) : List Char :=
  if p = [] then ['.']
  else
    let rooted : Bool := p.head? = some '/'
    let segs := cleanSegs rooted (splitSlash p) []
    let out := joinSlash segs
    let out := if rooted then '/' :: out else out
    if out = [] then ['.'] else out

/-- Go `path.Clean`. -/
def goPathClean (p : String) : String :=
  String.mk (goPathCleanChars p.data)

/-- Go `path.Join`: skip leading empty elements, join the rest with `/`, and
clean; all-empty input gives the empty string. -/
def goPathJoin (elems : List String) : String :=
  match elems.dropWhile (fun e => e == "") with
  | [] => ""
  | es => goPathClean (String.mk (joinSlash (es.map String.data)))

/-- Go `path.Dir`: the path up to and including its final `/` (empty when
there is no `/`), cleaned. -/
def goPathDir (p : String) : String :=
  goPathClean (String.mk (p.data.reverse.dropWhile (fun c => c != '/')).reverse)

example : goPathClean "" = "." := by decide
example : goPathClean "abc/def" = "abc/def" := by decide
example : goPathClean "/" = "/" := by decide
example : goPathClean "abc/" = "abc" := by decide
example : goPathClean "abc//def//ghi" = "abc/def/ghi" := by decide
example : goPathClean "//abc" = "/abc" := by decide
example : goPathClean "abc/./def" = "abc/def" := by decide
example : goPathClean "abc/def/../ghi/../jkl" = "abc/jkl" := by decide
example : goPathClean "abc/def/../.." = "." := by decide
example : goPathClean "/abc/def/../../.." = "/" := by decide
example : goPathClean "abc/def/../../../ghi/jkl/../../../mno" = "../../mno" := by decide
example : goPathClean "abc/../../././../def" = "../../def" := by decide
example : goPathClean "/../abc" = "/abc" := by decide
example : goPathJoin ["/extra/path", "/root"] = "/extra/path/root" := by decide
example : goPathJoin ["a", ""] = "a" := by decide
example : goPathJoin ["", "a"] = "a" := by decide
example : goPathJoin ["/a", "/.."] = "/" := by decide
example : goPathDir "/sub/page" = "/sub" := by decide
example : goPathDir "/" = "/" := by decide
example : goPathDir "noslash" = "." := by decide

/-! ## Subset of Go `net/url` used by `rewriteURL`

`rewriteURL` calls `url.Parse` and `(*url.URL).String()`.  We model the
components the function reads and writes (`Scheme`, `Host`, `Path`,
`RawQuery`, `Fragment`).  Percent-escaping is not modelled: the embedding is
faithful for URL strings without `%`-escapes (all inputs considered here),
where `EscapedPath()` coincides with `Path`.  Invalid control characters and
host validation are likewise outside the modelled subset; the only parse
error modelled is `missing protocol scheme` (a leading `:`), which is the
relevant one for plain link strings. -/

structure GoURL where
  scheme : String
  host : String
  path : String
  rawQuery : String
  fragment : String
deriving DecidableEq, Repr

/-- Go `(*url.URL).IsAbs()`. -/
def GoURL.isAbs (u : GoURL) : Bool := u.scheme != ""

/-- The scheme scanner of `net/url.getScheme`: a scheme is an alphabetic
character followed by alphanumerics or `+`, `-`, `.`, terminated by `:`.
Returns `none` for the `missing protocol scheme` error (leading `:`),
`some (some (scheme, rest))` when a scheme is present, and
`some none` when the string has no scheme. -/
def getSchemeAux : List Char → List Char → Option (Option (List Char × List Char))
  | [], _ => some none
  | c :: cs, acc =>
    if c.isAlpha then getSchemeAux cs (c :: acc)
    else if c.isDigit ∨ c = '+' ∨ c = '-' ∨ c = '.' then
      if acc = [] then some none else getSchemeAux cs (c :: acc)
    else if c = ':' then
      if acc = [] then none else some (some (acc.reverse, cs))
    else some none

/-- Splits a character list at the first occurrence of `sep`, returning the
part before it and (when present) the part after it. -/
def splitFirst (sep : Char) : List Char → List Char × Option (List Char)
  | [] => ([], none)
  | c :: cs =>
    if c = sep then ([], some cs)
    else
      match splitFirst sep cs with
      | (before, after) => (c :: before, after)

/-- Go `url.Parse` restricted to the modelled subset (see section comment).
Order as in `net/url`: split the fragment at the first `#`, scan the scheme,
split the query at the first `?`, then read authority (`//host`) and path. -/
def goURLParse (s : String) : Option GoURL :=
  let (beforeFrag, fragPart) := splitFirst '#' s.data
  let fragment := (fragPart.getD []).asString
  match getSchemeAux beforeFrag [] with
  | none => none
  | some schemeSplit =>
    let (schemeChars, afterScheme) :=
      match schemeSplit with
      | none => ([], beforeFrag)
      | some (sc, rest) => (sc.map Char.toLower, rest)
    let (beforeQuery, queryPart) := splitFirst '?' afterScheme
    let rawQuery := (queryPart.getD []).asString
    if schemeChars ≠ [] ∧ beforeQuery.head? ≠ some '/' then
      -- opaque URL (e.g. `mailto:user`): Path is empty
      some ⟨schemeChars.asString, "", "", rawQuery, fragment⟩
    else
      match beforeQuery with
      | '/' :: '/' :: afterSlashes =>
        let host := afterSlashes.takeWhile (fun c => c != '/')
        let path := afterSlashes.dropWhile (fun c => c != '/')
        some ⟨schemeChars.asString, host.asString, path.asString, rawQuery, fragment⟩
      | _ =>
        some ⟨schemeChars.asString, "", beforeQuery.asString, rawQuery, fragment⟩

/-- True when the first path segment contains a `:` (the case where Go
`URL.String` prepends `./`). -/
def firstSegmentHasColon (p : String) : Bool :=
  (p.data.takeWhile (fun c => c != '/')).contains ':'

/-- Go `(*url.URL).String()` on the modelled subset (no user info, no opaque
reconstruction, `EscapedPath = Path`). -/
def GoURL.toString (u : GoURL) : String :=
  let out := if u.scheme != "" then u.scheme ++ ":" else ""
  let out :=
    if u.scheme != "" ∨ u.host != "" then
      out ++ (if u.host != "" ∨ u.path != "" then "//" else "") ++ u.host
    else out
  let out :=
    if u.path != "" ∧ u.path.data.head? ≠ some '/' ∧ u.host != "" then out ++ "/" else out
  let out := if out = "" ∧ firstSegmentHasColon u.path then "./" else out
  out ++ u.path ++ (if u.rawQuery != "" then "?" ++ u.rawQuery else "")
      ++ (if u.fragment != "" then "#" ++ u.fragment else "")

/-- True when the string starts with `/` (Go `s[0] == '/'` on a non-empty
string). -/
def strStartsSlash (s : String) : Bool := s.data.head? = some '/'

/-- True when the string ends with `/` (Go `s[len(s)-1] == '/'` on a
non-empty string). -/
def strEndsSlash (s : String) : Bool := s.data.getLast? = some '/'

/-- The trailing-slash restoration at the end of `rewriteURL`
(`src/kubewebproxy.go` lines 284-287): when the original path ended in `/`
and the joined path does not, append `/`. -/
def preserveTrailingSlash (orig joined : String) : String :=
  if strEndsSlash orig ∧ ¬ strEndsSlash joined then joined ++ "/" else joined

/-! ## `rewriteURL` (`src/kubewebproxy.go` lines 260-289)

Rewrites a URL string so that absolute path references are based on
`rootPath` and relative references on `rootPath + relativePath`.  Unparseable
URLs, absolute URLs (with a scheme) and URLs with an empty path are returned
unchanged. -/

def rewriteURL (urlString rootPath relativePath : String) : String :=
  match goURLParse urlString with
  | none => urlString
  | some u =>
    if u.isAbs then urlString
    else if u.path = "" then urlString
    else
      let origPath := u.path
      let joined :=
        if strStartsSlash origPath then goPathJoin [rootPath, u.path]
        else goPathJoin [rootPath, relativePath, u.path]
      GoURL.toString { u with path := preserveTrailingSlash origPath joined }

example : goURLParse "relative.txt" = some ⟨"", "", "relative.txt", "", ""⟩ := by decide
example : goURLParse "#anchor" = some ⟨"", "", "", "", "anchor"⟩ := by decide
example : goURLParse "https://www.example.com/path" =
    some ⟨"https", "www.example.com", "/path", "", ""⟩ := by decide
example : rewriteURL "https://www.example.com/path" "/extra/path" "/subdir/" =
    "https://www.example.com/path" := by decide
example : rewriteURL "/root" "/extra/path" "/subdir/" = "/extra/path/root" := by decide
example : rewriteURL "/root/" "/extra/path" "/subdir/" = "/extra/path/root/" := by decide
example : rewriteURL "./dir/relative" "/extra/path" "/subdir/" =
    "/extra/path/subdir/dir/relative" := by decide
example : rewriteURL "./dir/relative/" "/extra/path" "/subdir/" =
    "/extra/path/subdir/dir/relative/" := by decide
example : rewriteURL "relative.txt" "/extra/path" "/subdir/" =
    "/extra/path/subdir/relative.txt" := by decide
example : rewriteURL "#anchor" "/extra/path" "/subdir/" = "#anchor" := by decide

/-! ## HTML tokens (`golang.org/x/net/html`)

`rewriteRelativeLinks` (`src/kubewebproxy.go` lines 292-319) loops over the
tokens produced by `html.NewTokenizer` and writes `t.String()` for every
token, after rewriting `href` attributes on `<a>` tokens.  The tokenizer
itself is an external library; the embedding therefore works on the token
stream: a document is given by its list of tokens, and
`rewriteRelativeLinks` maps the loop body over it.  `Token.String`,
`Token.tagString` and `html.EscapeString` are translated below; note that
`Token.String` escapes the data of *every* text token, including the raw
text inside `<script>` elements (golang.org/issue/7929). -/

inductive TokenType
  | text
  | startTag
  | endTag
  | selfClosingTag
  | comment
  | doctype
deriving DecidableEq, Repr

/-- The tag atoms the rewriter distinguishes (`t.DataAtom`); every other
known or unknown tag behaves identically and is collapsed into `other`. -/
inductive TagAtom
  | a
  | form
  | script
  | other
deriving DecidableEq, Repr

structure TagAttribute where
  key : String
  val : String
deriving DecidableEq, Repr

structure Token where
  type : TokenType
  dataAtom : TagAtom
  data : String
  attr : List TagAttribute
deriving DecidableEq, Repr

/-- The `escape` table of `x/net/html` (`EscapeString`): `&`, `'`, `<`, `>`,
`"` and carriage return are replaced by entities. -/
def escapeChar (c : Char) : String :=
  if c = '&' then "&amp;"
  else if c = '\x27' then "&#39;"
  else if c = '<' then "&lt;"
  else if c = '>' then "&gt;"
  else if c = '\x22' then "&#34;"
  else if c = '\r' then "&#13;"
  else String.mk [c]

/-- `html.EscapeString`. -/
def escapeString (s : String) : String :=
  String.join (s.data.map escapeChar)

/-- `Token.tagString`: the tag name followed by each attribute as
` key="escaped value"`. -/
def tagString (t : Token) : String :=
  t.data ++ String.join (t.attr.map fun a =>
    " " ++ a.key ++ "=\x22" ++ escapeString a.val ++ "\x22")

/-- `Token.String` of `x/net/html`. -/
def tokenString (t : Token) : String :=
  match t.type with
  | .text => escapeString t.data
  | .startTag => "<" ++ tagString t ++ ">"
  | .endTag => "</" ++ tagString t ++ ">"
  | .selfClosingTag => "<" ++ tagString t ++ "/>"
  | .comment => "<!--" ++ t.data ++ "-->"
  | .doctype => "<!DOCTYPE " ++ t.data ++ ">"

/-- The loop body of `rewriteRelativeLinks`: on a token whose `DataAtom` is
`atom.A`, every `href` attribute value is passed through `rewriteURL`; all
other tokens are left as they are. -/
def processToken (rootPath relativePath : String) (t : Token) : Token :=
  if t.dataAtom = TagAtom.a then
    { t with attr := t.attr.map fun a =>
        if a.key = "href" then { a with val := rewriteURL a.val rootPath relativePath }
        else a }
  else t

/-- `rewriteRelativeLinks` (`src/kubewebproxy.go` lines 292-319) on a token
stream: every token is processed and emitted through `Token.String`. -/
def rewriteRelativeLinks (tokens : List Token) (rootPath relativePath : String) : String :=
  String.join (tokens.map fun t => tokenString (processToken rootPath relativePath t))

/-- True when `sub` occurs as a contiguous substring of the list. -/
def containsSubChars (sub : List Char) : List Char → Bool
  | [] => List.isPrefixOf sub []
  | c :: t => List.isPrefixOf sub (c :: t) || containsSubChars sub t

/-- True when `sub` occurs as a contiguous substring of `s`
(Go `strings.Contains`). -/
def containsSub (s sub : String) : Bool :=
  containsSubChars sub.data s.data

example :
    rewriteRelativeLinks
      [⟨.startTag, .a, "a", [⟨"href", "./dir/relative1"⟩]⟩,
       ⟨.text, .other, "relative1", []⟩,
       ⟨.endTag, .a, "a", []⟩]
      "/extra/path" "/subdir" =
    "<a href=\x22/extra/path/subdir/dir/relative1\x22>relative1</a>" := by decide

/-! ## The path router: `servicePattern`
(`src/kubewebproxy.go` line 36, used by `proxy` lines 176-181)

`servicePattern` is the anchored regular expression
`^/([^/]+)/([^/]+)/([^/]+)(.*)$` under Go's default regexp flags: `^` and
`$` anchor at the start and end of the text, each `[^/]+` matches any
character except `/` (newline included), and `.` matches any character
*except newline*.  On a leftmost-greedy engine each `[^/]+` group captures
the maximal run of non-slash characters (it cannot cross a `/`, and the
group after it starts with `/` or matches the remainder), and the final
`(.*)` group matches the remainder exactly when it contains no newline — a
shorter third group only lengthens the remainder, so a newline after the
third `/` makes the whole pattern fail.  `FindStringSubmatch` is therefore
equivalent to the segment scanner below, whose last step rejects a
remainder containing `\n`. -/

/-- Consumes the literal `/` the pattern requires next. -/
def expectSlash : List Char → Option (List Char)
  | '/' :: rest => some rest
  | _ => none

/-- Captures one `[^/]+` group: the maximal non-empty run of non-slash
characters, together with the remaining input. -/
def parseSeg (cs : List Char) : Option (List Char × List Char) :=
  if cs.takeWhile (fun c => c != '/') = [] then none
  else some (cs.takeWhile (fun c => c != '/'), cs.dropWhile (fun c => c != '/'))

def parseServicePathChars (cs : List Char) :
    Option (List Char × List Char × List Char × List Char) :=
  (expectSlash cs).bind fun r0 =>
  (parseSeg r0).bind fun p1 =>
  (expectSlash p1.2).bind fun r1 =>
  (parseSeg r1).bind fun p2 =>
  (expectSlash p2.2).bind fun r2 =>
  (parseSeg r2).bind fun p3 =>
  if p3.2.all (fun c => c != '\n') then some (p1.1, p2.1, p3.1, p3.2) else none

/-- `servicePattern.FindStringSubmatch` as a router: a matching path yields
the `(namespace, service, port, destPath)` capture groups. -/
def parseServicePath (p : String) : Option (String × String × String × String) :=
  (parseServicePathChars p.data).map fun (a, b, c, d) =>
    (a.asString, b.asString, c.asString, d.asString)

example : parseServicePath "/namespace/service/123/" =
    some ("namespace", "service", "123", "/") := by decide
example : parseServicePath "/ns/svc/123/sub/path" =
    some ("ns", "svc", "123", "/sub/path") := by decide
example : parseServicePath "/ns/svc/123" = some ("ns", "svc", "123", "") := by decide
example : parseServicePath "/" = none := by decide
example : parseServicePath "/a//b/" = none := by decide
example : parseServicePath "/ns/svc/123/a\nb" = none := by decide
example : parseServicePath "/ns/svc/12\n3/x" = some ("ns", "svc", "12\n3", "/x") := by decide

/-! ## `strconv.ParseInt(port, 10, 32)`
Base 10 is given explicitly (so digit-group underscores are rejected) and
`bitSize` 32 makes out-of-range values an error. -/

def goParseInt32 (s : String) : Option Int :=
  match s.data with
  | [] => none
  | cs =>
    let (sign, digits) : Int × List Char :=
      match cs with
      | '+' :: r => (1, r)
      | '-' :: r => (-1, r)
      | r => (1, r)
    if digits = [] ∨ ¬ digits.all Char.isDigit then none
    else
      let n : Nat := digits.foldl (fun a c => a * 10 + (c.toNat - 48)) 0
      let v : Int := sign * n
      if v < -(2 ^ 31) ∨ v > 2 ^ 31 - 1 then none else some v

example : goParseInt32 "123" = some 123 := by decide
example : goParseInt32 "8080" = some 8080 := by decide
example : goParseInt32 "12a" = none := by decide
example : goParseInt32 "" = none := by decide
example : goParseInt32 "2147483648" = none := by decide

/-! ## Service directory and the proxy handler
(`src/kubewebproxy.go` lines 38-52, 159-219)

The directory is the external `serviceInfo` collaborator: `get` returns the
entry for `(namespace, name)` or a Kubernetes `NotFound` error.  It is
embedded as a lookup in a list of entries, which is exactly the
`fakeKubernetesAPIClient` of the repository's tests and the documented
contract of the real client. -/

inductive K8sProtocol
  | tcp
  | udp
  | sctp
deriving DecidableEq, Repr

structure K8sServicePort where
  name : String
  protocol : K8sProtocol
  port : Int
deriving DecidableEq, Repr

structure K8sService where
  ns : String
  name : String
  clusterIP : String
  ports : List K8sServicePort
deriving DecidableEq, Repr

/-- The `serviceInfo.get` contract: the first entry matching
`(namespace, name)`, or `none` (a Kubernetes `NotFound` error). -/
def dirGet (dir : List K8sService) (ns name : String) : Option K8sService :=
  dir.find? fun s => s.ns == ns && s.name == name

/-- The request data `proxy` stores in the request context for
`proxyRewriter` (struct `origRequestData`). -/
structure OrigRequestData where
  ns : String
  service : String
  port : Int
  destPath : String
deriving DecidableEq, Repr

/-- The error cases of `server.proxy`.  Only `notFound` satisfies
`errors.IsNotFound`; the others are generic errors. -/
inductive ProxyError
  | badPath (path : String)
  | badPort (portString : String)
  | notFound
  | portNotFound (port : Int)
deriving DecidableEq, Repr

def ProxyError.isNotFound : ProxyError → Bool
  | .notFound => true
  | _ => false

/-- The outbound request `proxy` hands to the reverse-proxy primitive after
rewriting scheme, host and path (`src/kubewebproxy.go` lines 206-217). -/
structure ForwardedRequest where
  scheme : String
  hostPort : String
  path : String
  origData : OrigRequestData
deriving DecidableEq, Repr

/-- `server.proxy` (`src/kubewebproxy.go` lines 176-219): parse the path,
parse the port, look up the service, require an advertised TCP port with the
parsed number, then forward. -/
def proxy (dir : List K8sService) (path : String) : Except ProxyError ForwardedRequest :=
  match parseServicePath path with
  | none => .error (.badPath path)
  | some (ns, service, portStr, destPath) =>
    match goParseInt32 portStr with
    | none => .error (.badPort portStr)
    | some parsedPort =>
      match dirGet dir ns service with
      | none => .error .notFound
      | some serviceMeta =>
        if serviceMeta.ports.any (fun p => p.port == parsedPort && p.protocol == K8sProtocol.tcp) then
          .ok { scheme := "http"
                hostPort := serviceMeta.clusterIP ++ ":" ++ toString parsedPort
                path := destPath
                origData := ⟨ns, service, parsedPort, destPath⟩ }
        else .error (.portNotFound parsedPort)

/-- What `proxyErrWrapper` sends to the client: either the forwarded
upstream exchange, or an error status produced from the `proxy` error. -/
inductive HandlerOutcome
  | forwarded (f : ForwardedRequest)
  | errorResponse (status : Nat)
deriving DecidableEq, Repr

/-- `server.proxyErrWrapper` (`src/kubewebproxy.go` lines 159-174) for `GET`
requests: a `NotFound` directory error becomes `http.NotFound` (404), any
other error becomes `http.Error(..., 500)`. -/
def proxyErrWrapper (dir : List K8sService) (path : String) : HandlerOutcome :=
  match proxy dir path with
  | .ok fwd => .forwarded fwd
  | .error e => if e.isNotFound then .errorResponse 404 else .errorResponse 500

/-! ## `mime.ParseMediaType` (media-type part) and `proxyRewriter`
(`src/kubewebproxy.go` lines 221-255)

`proxyRewriter` computes
`mediaType, _, err := mime.ParseMediaType(resp.Header.Get("Content-Type"))`
and only uses `mediaType`.  We translate the media-type extraction: the part
before the first `;`, lower-cased and trimmed, validated by
`checkMediaTypeDisposition` (`type/subtype` in RFC 1521 tokens); on a
validation error Go returns an empty media type.  Parameter parsing (which
never changes a *valid* `text/html` media type) is not modelled. -/

def isTSpecial (c : Char) : Bool :=
  ['(', ')', '<', '>', '@', ',', ';', ':', '\\', '\x22', '/', '[', ']', '?', '='].contains c

def isTokenChar (c : Char) : Bool :=
  0x20 < c.toNat && c.toNat < 0x7f && !isTSpecial c

/-- `mime.checkMediaTypeDisposition`: a token, optionally followed by `/`
and a second token, with nothing left over. -/
def checkMediaTypeDisposition (s : List Char) : Bool :=
  let typ := s.takeWhile isTokenChar
  if typ = [] then false
  else
    match s.dropWhile isTokenChar with
    | [] => true
    | '/' :: r2 =>
      let sub := s.dropWhile isTokenChar |>.drop 1 |>.takeWhile isTokenChar
      sub ≠ [] && r2.dropWhile isTokenChar = []
    | _ => false

/-- ASCII white space trim (Go `strings.TrimSpace` on the media types
considered here). -/
def trimSpaces (cs : List Char) : List Char :=
  ((cs.dropWhile Char.isWhitespace).reverse.dropWhile Char.isWhitespace).reverse

/-- The `mediaType` result of `mime.ParseMediaType`: empty on a
disposition error, otherwise the lower-cased, trimmed `type/subtype`. -/
def goParseMediaType (v : String) : String :=
  let base := (splitFirst ';' v.data).1
  let mt := trimSpaces (base.map Char.toLower)
  if checkMediaTypeDisposition mt then mt.asString else ""

example : goParseMediaType "text/html" = "text/html" := by decide
example : goParseMediaType "text/html; charset=UTF-8" = "text/html" := by decide
example : goParseMediaType "Text/HTML" = "text/html" := by decide
example : goParseMediaType "text/plain;charset=utf-8" = "text/plain" := by decide
example : goParseMediaType "" = "" := by decide
example : goParseMediaType "garbage here" = "" := by decide

/-- The upstream response as seen by `proxyRewriter`: the headers it reads
or writes, and the body given by its HTML token stream. -/
structure UpstreamResponse where
  contentType : String
  location : Option String
  contentLength : Option Nat
  bodyTokens : List Token
deriving DecidableEq, Repr

/-- The body of the response returned to the client: either the upstream
body passed through untouched, or the buffered rewritten content. -/
inductive ProxyBody
  | passthrough (tokens : List Token)
  | rewritten (content : String)
deriving DecidableEq, Repr

structure ClientResponse where
  contentType : String
  location : Option String
  contentLength : Option Nat
  body : ProxyBody
deriving DecidableEq, Repr

/-- `server.proxyRewriter` (`src/kubewebproxy.go` lines 221-255).  The
media-type test comes first and returns the response unchanged for anything
that is not `text/html`; only then is the per-request `origRequestData`
recovered from the context (`ctx`), failing with an error when absent; for
HTML the body is rewritten with root `/{namespace}/{service}/{port}` and
relative base `path.Dir(destPath)`, and `Content-Length` is deleted.  The
`Location` header is not touched on any branch. -/
def proxyRewriter (resp : UpstreamResponse) (ctx : Option OrigRequestData) :
    Except String ClientResponse :=
  let mediaType := goParseMediaType resp.contentType
  if mediaType ≠ "text/html" then
    .ok ⟨resp.contentType, resp.location, resp.contentLength, .passthrough resp.bodyTokens⟩
  else
    match ctx with
    | none => .error "proxy error: original request data not found in context"
    | some origData =>
      let rootPath := "/" ++ origData.ns ++ "/" ++ origData.service ++ "/" ++ toString origData.port
      let relativePath := goPathDir origData.destPath
      .ok ⟨resp.contentType, resp.location, none,
           .rewritten (rewriteRelativeLinks resp.bodyTokens rootPath relativePath)⟩

/-! ## The directory listing (`rootHandler`, `src/kubewebproxy.go` lines
112-149, and `rootTemplate`, lines 387-411)

`rootHandler` sorts the fetched services with `sort.Slice` on the strict
comparator "namespace, then name", then builds the template data in one
pass: a new namespace heading whenever the namespace differs from the
previous entry's, and the service (with only its TCP ports) appended to the
most recent heading.  `sort.Slice` guarantees a permutation ordered by the
comparator; `List.insertionSort` with the matching non-strict relation is
such a sort. -/

structure PortTemplateData where
  name : String
  port : Int
deriving DecidableEq, Repr

structure ServiceTemplateData where
  name : String
  clusterIP : String
  tcpPorts : List PortTemplateData
deriving DecidableEq, Repr

structure NamespaceTemplateData where
  name : String
  services : List ServiceTemplateData
deriving DecidableEq, Repr

/-- Go string comparison `s < t`: lexicographic by character (identical to
Go's byte-wise comparison, since UTF-8 preserves code-point order). -/
def strLt : List Char → List Char → Bool
  | [], [] => false
  | [], _ :: _ => true
  | _ :: _, [] => false
  | a :: as, b :: bs =>
    if a < b then true
    else if b < a then false
    else strLt as bs

/-- The `sort.Slice` comparator of `rootHandler` (lines 119-124):
`less i j = ns_i < ns_j` when the namespaces differ, else
`name_i < name_j`. -/
def svcLess (a b : K8sService) : Bool :=
  if a.ns ≠ b.ns then strLt a.ns.data b.ns.data
  else strLt a.name.data b.name.data

/-- The non-strict order `sort.Slice` establishes: `a` need not come after
`b`, i.e. `not (less b a)` — ascending lexicographic on the
`(namespace, name)` pair. -/
def svcLe (a b : K8sService) : Prop := svcLess b a = false

instance : DecidableRel svcLe := fun a b =>
  inferInstanceAs (Decidable (svcLess b a = false))

/-- The `sort.Slice` call of `rootHandler`. -/
def sortServices (items : List K8sService) : List K8sService :=
  List.insertionSort svcLe items

/-- The per-service template data built by the loop body of `rootHandler`:
name, cluster IP, and only the TCP-protocol ports. -/
def mkServiceData (s : K8sService) : ServiceTemplateData :=
  { name := s.name
    clusterIP := s.clusterIP
    tcpPorts := (s.ports.filter fun p => p.protocol == K8sProtocol.tcp).map
      fun p => ⟨p.name, p.port⟩ }

/-- The template-data loop of `rootHandler` (lines 127-149).  The
accumulator holds `data.Namespaces` in reverse (head = the namespace most
recently appended, which the Go code addresses as
`data.Namespaces[len(data.Namespaces)-1]`).  When that slice is empty the Go
code panics on the index `-1`, modelled by `none`. -/
def rootLoop : List K8sService → String → List NamespaceTemplateData →
    Option (List NamespaceTemplateData)
  | [], _, acc => some acc.reverse
  | s :: rest, lastNamespace, acc =>
    let acc' := if s.ns ≠ lastNamespace then ⟨s.ns, []⟩ :: acc else acc
    match acc' with
    | [] => none
    | lastNS :: others =>
      rootLoop rest s.ns ({ lastNS with services := lastNS.services ++ [mkServiceData s] } :: others)

/-- The `data.Namespaces` value `rootHandler` passes to the template. -/
def buildRootData (items : List K8sService) : Option (List NamespaceTemplateData) :=
  rootLoop (sortServices items) "" []

/-- The namespace headings the loop emits: one per maximal run of equal
consecutive namespaces (given the previous namespace `last`). -/
def headingsOf : List K8sService → String → List String
  | [], _ => []
  | s :: rest, last => (if s.ns ≠ last then [s.ns] else []) ++ headingsOf rest s.ns

/-- Flattens template data to `(heading namespace, service entry)` pairs in
presentation order. -/
def pairsOf (l : List NamespaceTemplateData) : List (String × ServiceTemplateData) :=
  l.flatMap fun n => n.services.map fun d => (n.name, d)

/-! ### Rendering `rootTemplate`

A direct translation of the `text/template` text: literal text between the
actions is emitted verbatim, `range` iterates, and `if` tests for a
non-empty port list.  The `html/template` auto-escaping functions are the
identity on the alphanumeric names and numeric ports used in the theorems
and are not modelled. -/

def renderPortLink (nsName svcName : String) (p : PortTemplateData) : String :=
  "\n\t\t\t[<a href=\x22/" ++ nsName ++ "/" ++ svcName ++ "/" ++ toString p.port
    ++ "/\x22>" ++ p.name ++ " " ++ toString p.port ++ "</a>]\n\t\t"

def renderService (nsName : String) (svc : ServiceTemplateData) : String :=
  "\n<li>" ++ svc.name ++ " \n\t"
    ++ (if svc.tcpPorts.isEmpty then ""
        else "\n\t\t<em>TCP Ports</em>: \n\t\t"
          ++ String.join (svc.tcpPorts.map (renderPortLink nsName svc.name))
          ++ "\n\t")
    ++ "</li>\n"

def renderNamespace (n : NamespaceTemplateData) : String :=
  "\n<h2>Namespace " ++ n.name ++ "</h2>\n<ul>\n"
    ++ String.join (n.services.map (renderService n.name))
    ++ "\n</ul>\n"

def renderRoot (namespaces : List NamespaceTemplateData) : String :=
  "<!doctype html>\n<html>\n<head><title>Kube Web Proxy</title></head>\n<body>\n"
    ++ "<h1>Kube Web Proxy</h1>\n<p>Proxies requests into a Kubernetes cluster.</p>\n"
    ++ "<h2>WARNING: This can be a dangerous security hole</h2>\n\n"
    ++ String.join (namespaces.map renderNamespace)
    ++ "\n\n</body>\n</html>"

/-- Drops everything up to and including the first occurrence of `sub`;
`none` when `sub` does not occur. -/
def dropThrough (sub : List Char) : List Char → Option (List Char)
  | [] => if List.isPrefixOf sub ([] : List Char) then some [] else none
  | c :: t =>
    if List.isPrefixOf sub (c :: t) then some ((c :: t).drop sub.length)
    else dropThrough sub t

/-- True when the given substrings occur in `s` in the given order, each
after the end of the previous one. -/
def occursInOrder : List String → List Char → Bool
  | [], _ => true
  | sub :: rest, s =>
    match dropThrough sub.data s with
    | none => false
    | some s' => occursInOrder rest s'

/-! ## The health gate

`makeSecureHandler` (`src/kubewebproxy.go` lines 321-326) wraps the mux in
`iap.RequiredWithExceptions(iapAudience, mux, []string{"/health"})`; the
bypass decision itself lives in the external `iap` middleware, outside
`src/`. -/

/-- Modelled from the spec: the authentication bypass decided inside
`iap.RequiredWithExceptions`, whose implementation is not part of
`src/kubewebproxy.go` (only its call site is).  Following §4.6, a request
bypasses authentication when its path is exactly the designated health path
(`/health`, the exception list passed by `makeSecureHandler`), or when its
path is `/` and its user agent, lower-cased, contains one of the designated
health-check-agent substrings (the probe families `googlehc/` and
`kube-probe/`). -/
def healthBypass (path userAgent : String) : Bool :=
  path == "/health" ||
    (path == "/" &&
      (containsSub (String.mk (userAgent.data.map Char.toLower)) "googlehc/" ||
       containsSub (String.mk (userAgent.data.map Char.toLower)) "kube-probe/"))

example : healthBypass "/health" "curl/7.1" = true := by decide
example : healthBypass "/" "kube-probe/1.17" = true := by decide
example : healthBypass "/" "GoogleHC/1.0" = true := by decide
example : healthBypass "/other" "GoogleHC/1.0" = false := by decide
example : healthBypass "/" "Mozilla/5.0" = false := by decide

/-! ## Concrete fixtures used by the claim theorems -/

/-- The `<form method="post" action="/root/post">` start tag of the
repository's `exampleHTML` test document, as tokenized by `x/net/html`. -/
def formToken : Token :=
  ⟨.startTag, .form, "form", [⟨"method", "post"⟩, ⟨"action", "/root/post"⟩]⟩

/-- The raw-text token holding the `"use strict";` line of the `<script>`
element in the repository's `exampleHTML` test document. -/
def scriptTextToken : Token := ⟨.text, .other, "\x22use strict\x22;", []⟩

/-- An upstream `text/html` response carrying `Location: /redirect`
(the redirect scenario of the spec's end-to-end property). -/
def locationProbeResponse : UpstreamResponse :=
  { contentType := "text/html"
    location := some "/redirect"
    contentLength := some 100
    bodyTokens := [⟨.startTag, .a, "a", [⟨"href", "/root"⟩]⟩] }

/-- The routing data of the proxied request `/ns/svc/3000/`. -/
def locationProbeData : OrigRequestData := ⟨"ns", "svc", 3000, "/"⟩

/-- A directory with one service `ns/svc` advertising TCP port 80 and UDP
port 53. -/
def probeDirectory : List K8sService :=
  [⟨"ns", "svc", "10.0.0.1", [⟨"web", .tcp, 80⟩, ⟨"dns", .udp, 53⟩]⟩]

/-- The listing example of the spec: entries `(b,y), (a,z), (a,x)`, each
with one TCP port, `(a,z)` also with a UDP port that must not be listed. -/
def exampleServices : List K8sService :=
  [⟨"b", "y", "10.0.0.2", [⟨"web", .tcp, 2⟩]⟩,
   ⟨"a", "z", "10.0.0.3", [⟨"web", .tcp, 3⟩, ⟨"dns", .udp, 53⟩]⟩,
   ⟨"a", "x", "10.0.0.1", [⟨"web", .tcp, 1⟩]⟩]

/-- The template data the listing builds for `exampleServices`. -/
def exampleRootData : List NamespaceTemplateData :=
  [⟨"a", [⟨"x", "10.0.0.1", [⟨"web", 1⟩]⟩, ⟨"z", "10.0.0.3", [⟨"web", 3⟩]⟩]⟩,
   ⟨"b", [⟨"y", "10.0.0.2", [⟨"web", 2⟩]⟩]⟩]

/-! ## Claim C6: the path router grammar -/

theorem parseSeg_stops (l t : List Char) (hl : l ≠ []) (h : ∀ a ∈ l, (a != '/') = true) :
    parseSeg (l ++ '/' :: t) = some (l, '/' :: t) := by
  unfold parseSeg
  rw [List.takeWhile_append_of_pos h, List.dropWhile_append_of_pos h]
  simp [List.takeWhile_cons, hl]

theorem parseSeg_all (l : List Char) (hl : l ≠ []) (h : ∀ a ∈ l, (a != '/') = true) :
    parseSeg l = some (l, []) := by
  unfold parseSeg
  rw [List.takeWhile_eq_self_iff.mpr h, List.dropWhile_eq_nil_iff.mpr h]
  simp [hl]

theorem parseServicePathChars_spec (ns svc port rest : List Char)
    (hns : ns ≠ []) (hns2 : '/' ∉ ns)
    (hsvc : svc ≠ []) (hsvc2 : '/' ∉ svc)
    (hport : port ≠ []) (hport2 : '/' ∉ port)
    (hrest : rest = [] ∨ rest.head? = some '/') (hnl : '\n' ∉ rest) :
    parseServicePathChars ('/' :: (ns ++ '/' :: (svc ++ '/' :: (port ++ rest)))) =
      some (ns, svc, port, rest) := by
  have pns : ∀ a ∈ ns, (a != '/') = true := by
    intro a ha
    simp only [bne_iff_ne, ne_eq]
    exact fun e => hns2 (e ▸ ha)
  have psvc : ∀ a ∈ svc, (a != '/') = true := by
    intro a ha
    simp only [bne_iff_ne, ne_eq]
    exact fun e => hsvc2 (e ▸ ha)
  have pport : ∀ a ∈ port, (a != '/') = true := by
    intro a ha
    simp only [bne_iff_ne, ne_eq]
    exact fun e => hport2 (e ▸ ha)
  have seg3 : parseSeg (port ++ rest) = some (port, rest) := by
    rcases hrest with hrest | hrest
    · subst hrest
      simpa using parseSeg_all port hport pport
    · rcases rest with _ | ⟨c, restTail⟩
      · simp at hrest
      · have hc : c = '/' := by simpa using hrest
        subst hc
        exact parseSeg_stops port restTail hport pport
  unfold parseServicePathChars
  rw [show expectSlash ('/' :: (ns ++ '/' :: (svc ++ '/' :: (port ++ rest))))
      = some (ns ++ '/' :: (svc ++ '/' :: (port ++ rest))) from rfl]
  simp only [Option.bind_eq_bind, Option.some_bind]
  rw [parseSeg_stops ns _ hns pns]
  simp only [Option.some_bind]
  rw [show expectSlash ('/' :: (svc ++ '/' :: (port ++ rest)))
      = some (svc ++ '/' :: (port ++ rest)) from rfl]
  simp only [Option.some_bind]
  rw [parseSeg_stops svc _ hsvc psvc]
  simp only [Option.some_bind]
  rw [show expectSlash ('/' :: (port ++ rest)) = some (port ++ rest) from rfl]
  simp only [Option.some_bind]
  rw [seg3]
  simp only [Option.some_bind]
  have hall : rest.all (fun c => c != '\n') = true := by
    rw [List.all_eq_true]
    intro c hc
    simp only [bne_iff_ne, ne_eq]
    exact fun e => hnl (e ▸ hc)
  simp [hall]

/-- C6 counterexample: `/ns/svc/123/a\nb` is of the claimed form
(non-empty slash-free segments, remainder `/a\nb` with its leading slash),
but `servicePattern` does not match it — Go's `(.*)` cannot cross the
newline — so the router rejects it instead of producing the tuple. -/
theorem servicePattern_newline_counterexample :
    parseServicePath ("/" ++ "ns" ++ "/" ++ "svc" ++ "/" ++ "123" ++ "/a\nb") = none ∧
    ("/a\nb" : String).data.head? = some '/' ∧
    '/' ∉ ("ns" : String).data ∧ '/' ∉ ("svc" : String).data ∧
    '/' ∉ ("123" : String).data := by
  exact ⟨by decide, by decide, by decide, by decide, by decide⟩

/-- C6 (amended): a request path `/<segment>/<segment>/<segment><rest>`
whose first three segments are non-empty and slash-free, and whose remainder
is empty or starts with `/` *and contains no newline* (Go's default-flag
`.` does not match `\n`, so a remainder containing one fails the pattern),
is routed by `servicePattern` to exactly
`(namespace, service, port-string, subpath)` with the subpath keeping its
leading slash. -/
theorem servicePattern_routes (ns svc port rest : String)
    (hns : ns ≠ "") (hns2 : '/' ∉ ns.data)
    (hsvc : svc ≠ "") (hsvc2 : '/' ∉ svc.data)
    (hport : port ≠ "") (hport2 : '/' ∉ port.data)
    (hrest : rest = "" ∨ rest.data.head? = some '/') (hnl : '\n' ∉ rest.data) :
    parseServicePath ("/" ++ ns ++ "/" ++ svc ++ "/" ++ port ++ rest) =
      some (ns, svc, port, rest) := by
  have toData : ∀ s : String, s ≠ "" → s.data ≠ [] := by
    intro s hs he
    exact hs (by cases s; simp_all)
  have hd : ("/" ++ ns ++ "/" ++ svc ++ "/" ++ port ++ rest).data
      = '/' :: (ns.data ++ '/' :: (svc.data ++ '/' :: (port.data ++ rest.data))) := by
    simp [String.data_append]
  have hrest' : rest.data = [] ∨ rest.data.head? = some '/' := by
    rcases hrest with h | h
    · exact Or.inl (by simp [h])
    · exact Or.inr h
  unfold parseServicePath
  rw [hd, parseServicePathChars_spec ns.data svc.data port.data rest.data
    (toData ns hns) hns2 (toData svc hsvc) hsvc2 (toData port hport) hport2 hrest' hnl]
  rfl

/-- Closed instances of C6, matching the spec's examples: `/ns/svc/123/sub/path`
parses to `(ns, svc, "123", "/sub/path")` and `/ns/svc/123/` parses to
subpath `/`. -/
theorem servicePattern_routes_witness :
    parseServicePath "/ns/svc/123/sub/path" = some ("ns", "svc", "123", "/sub/path") ∧
    parseServicePath "/ns/svc/123/" = some ("ns", "svc", "123", "/") := by
  constructor
  · have h := servicePattern_routes "ns" "svc" "123" "/sub/path"
      (by decide) (by decide) (by decide) (by decide) (by decide) (by decide)
      (Or.inr (by decide))
    simpa using h
  · have h := servicePattern_routes "ns" "svc" "123" "/"
      (by decide) (by decide) (by decide) (by decide) (by decide) (by decide)
      (Or.inr (by decide))
    simpa using h

/-! ## Claims C1 and C7: `rewriteURL` on relative and absolute paths -/

/-- The rewriting branch of `rewriteURL` for any parsed, non-absolute URL
with a non-empty path. -/
theorem rewriteURL_eq (s : String) (u : GoURL) (root rel : String)
    (hp : goURLParse s = some u) (habs : u.isAbs = false) (hne : u.path ≠ "") :
    rewriteURL s root rel =
      GoURL.toString { u with path := (preserveTrailingSlash u.path
        (if strStartsSlash u.path then goPathJoin [root, u.path]
         else goPathJoin [root, rel, u.path])) } := by
  unfold rewriteURL
  rw [hp]
  simp [habs, hne]

/-- Appending `/` makes a string end in `/`. -/
theorem strEndsSlash_append_slash (j : String) : strEndsSlash (j ++ "/") = true := by
  have hd : (j ++ "/").data = j.data ++ ['/'] := by simp [String.data_append]
  simp [strEndsSlash, hd, List.getLast?_concat]

/-- A path that ends in `/` still ends in `/` after the trailing-slash
restoration step. -/
theorem strEndsSlash_preserve (orig j : String) (h : strEndsSlash orig = true) :
    strEndsSlash (preserveTrailingSlash orig j) = true := by
  unfold preserveTrailingSlash
  by_cases hj : strEndsSlash j = true
  · simp [h, hj]
  · simp [h, hj, strEndsSlash_append_slash]

/-- C1 counterexample: on the relative reference `relative.txt` (with the
root and relative base of the repository's own `TestRewriteURL`),
`rewriteURL` is not the identity — it returns the joined path, exactly as
the test expects. -/
theorem rewriteURL_relative_not_identity :
    rewriteURL "relative.txt" "/extra/path" "/subdir/" = "/extra/path/subdir/relative.txt" ∧
    "/extra/path/subdir/relative.txt" ≠ "relative.txt" := by
  exact ⟨by decide, by decide⟩

/-- C1 (amended): for every URL string that parses to a non-absolute URL
whose path is non-empty and does not start with `/`, `rewriteURL` is *not*
the identity in general: it replaces the path by
`path.Join(rootPath, relativePath, path)` with the original trailing slash
preserved, leaving the other URL components unchanged. -/
theorem rewriteURL_relative_rewrites (s : String) (u : GoURL) (root rel : String)
    (hp : goURLParse s = some u) (habs : u.isAbs = false) (hne : u.path ≠ "")
    (hrel : strStartsSlash u.path = false) :
    rewriteURL s root rel =
      GoURL.toString { u with path := (preserveTrailingSlash u.path
        (goPathJoin [root, rel, u.path])) } := by
  rw [rewriteURL_eq s u root rel hp habs hne, hrel]
  simp

/-- Closed instance of the amended C1 at the repository's test vector
`./dir/relative`. -/
theorem rewriteURL_relative_rewrites_witness :
    rewriteURL "./dir/relative" "/extra/path" "/subdir/" =
      "/extra/path/subdir/dir/relative" := by
  have h := rewriteURL_relative_rewrites "./dir/relative"
    ⟨"", "", "./dir/relative", "", ""⟩ "/extra/path" "/subdir/"
    (by decide) (by decide) (by decide) (by decide)
  rw [h]
  decide

/-- C7 counterexample: the result path is not always `path.Join(rootPath, p)`
(`/root/` keeps its trailing slash, which `Join` strips), and the result can
end in `/` when `p` did not (`/..` joins and cleans to `/`), refuting the
claimed equality and the claimed "ends in `/` iff `p` did". -/
theorem rewriteURL_absolute_join_counterexample :
    (rewriteURL "/root/" "/a" "" ≠ goPathJoin ["/a", "/root/"]) ∧
    (strEndsSlash (rewriteURL "/.." "/a" "") = true ∧ strEndsSlash "/.." = false) := by
  exact ⟨by decide, by decide, by decide⟩

/-- C7 (amended): absolute-scheme URLs and URLs with empty path are returned
unchanged; for a parsed non-absolute URL whose path `p` starts with `/`, the
result's path is `path.Join(rootPath, p)` with a trailing `/` appended when
`p` ended in `/` and the join result does not (so the result ends in `/`
whenever `p` does; the converse can fail when the join collapses to `/`),
and the other URL components are unchanged. -/
theorem rewriteURL_absolute_spec (s : String) (u : GoURL) (root rel : String) :
    (goURLParse s = some u → u.isAbs = true → rewriteURL s root rel = s) ∧
    (goURLParse s = some u → u.path = "" → rewriteURL s root rel = s) ∧
    (goURLParse s = some u → u.isAbs = false → u.path ≠ "" →
      strStartsSlash u.path = true →
      rewriteURL s root rel =
        GoURL.toString { u with path := (preserveTrailingSlash u.path
          (goPathJoin [root, u.path])) } ∧
      (strEndsSlash u.path = true →
        strEndsSlash (preserveTrailingSlash u.path (goPathJoin [root, u.path])) = true)) := by
  refine ⟨fun hp habs => ?_, fun hp hemp => ?_, fun hp habs hne habs2 => ⟨?_, fun hsl => ?_⟩⟩
  · unfold rewriteURL
    rw [hp]
    simp [habs]
  · unfold rewriteURL
    rw [hp]
    by_cases habs : u.isAbs <;> simp [habs, hemp]
  · rw [rewriteURL_eq s u root rel hp habs hne, habs2]
    simp
  · exact strEndsSlash_preserve u.path (goPathJoin [root, u.path]) hsl

/-- Closed instances of the amended C7: an absolute-scheme URL is unchanged,
and `/root` is rewritten under the root path. -/
theorem rewriteURL_absolute_spec_witness :
    rewriteURL "https://www.example.com/path" "/extra/path" "/subdir/" =
      "https://www.example.com/path" ∧
    rewriteURL "/root" "/extra/path" "/subdir/" =
      GoURL.toString
        ⟨"", "", preserveTrailingSlash "/root" (goPathJoin ["/extra/path", "/root"]),
         "", ""⟩ := by
  constructor
  · exact (rewriteURL_absolute_spec "https://www.example.com/path"
      ⟨"https", "www.example.com", "/path", "", ""⟩ "/extra/path" "/subdir/").1
      (by decide) (by decide)
  · exact ((rewriteURL_absolute_spec "/root" ⟨"", "", "/root", "", ""⟩
      "/extra/path" "/subdir/").2.2 (by decide) (by decide) (by decide) (by decide)).1

/-! ## Claims C3 and C4: the HTML body rewriter -/

/-- C3 counterexample: `rewriteRelativeLinks` emits a `<form>` token with
its `action` attribute unchanged, while the claim requires the `action`
value to be replaced by its rewrite (here `/extra/path/root/post`), which
does not occur in the output. -/
theorem form_action_not_rewritten :
    rewriteRelativeLinks [formToken] "/extra/path" "/subdir" =
      "<form method=\x22post\x22 action=\x22/root/post\x22>" ∧
    rewriteURL "/root/post" "/extra/path" "/subdir" = "/extra/path/root/post" ∧
    containsSub "<form method=\x22post\x22 action=\x22/root/post\x22>"
      "/extra/path/root/post" = false := by
  exact ⟨by decide, by decide, by decide⟩

/-- C3 (amended): only anchor (`<a>`) tokens have their `href` attributes
rewritten; every token whose tag atom is not `a` — form elements included —
is re-emitted as `Token.String` of the unchanged token, its `action`
attribute untouched. -/
theorem rewriteRelativeLinks_non_anchor_passthrough (tokens : List Token)
    (root rel : String) (h : ∀ t ∈ tokens, t.dataAtom ≠ TagAtom.a) :
    rewriteRelativeLinks tokens root rel = String.join (tokens.map tokenString) := by
  unfold rewriteRelativeLinks
  congr 1
  apply List.map_congr_left
  intro t ht
  have : processToken root rel t = t := by
    unfold processToken
    simp [h t ht]
  rw [this]

/-- Closed instance of the amended C3 at the test document's form token. -/
theorem rewriteRelativeLinks_non_anchor_passthrough_witness :
    rewriteRelativeLinks [formToken] "/extra/path" "/subdir" =
      String.join ([formToken].map tokenString) := by
  exact rewriteRelativeLinks_non_anchor_passthrough [formToken] "/extra/path" "/subdir"
    (by decide)

/-- C4 (code bug): the rewriter emits every token through `Token.String`,
which escapes the data of raw-text tokens, so the `<script>` text
`"use strict";` of the repository's own `TestRewriteHTML` document is
emitted as `&#34;use strict&#34;;` and the output fails the test's
`mustContain` check for the verbatim text. -/
theorem script_text_escaped_not_verbatim :
    rewriteRelativeLinks [scriptTextToken] "/extra/path" "/subdir" =
      "&#34;use strict&#34;;" ∧
    containsSub (rewriteRelativeLinks [scriptTextToken] "/extra/path" "/subdir")
      "\x22use strict\x22;" = false := by
  exact ⟨by decide, by decide⟩

/-! ## Claims C2 and C10: the response-modification hook -/

/-- C2 counterexample: on a `text/html` upstream response with
`Location: /redirect`, proxied as `/ns/svc/3000/`, the hook succeeds but
returns the `Location` header unchanged (`/redirect`), not the rewrite
`/ns/svc/3000/redirect` that the claim requires. -/
theorem proxyRewriter_location_not_rewritten :
    (proxyRewriter locationProbeResponse (some locationProbeData)).map
      ClientResponse.location = Except.ok (some "/redirect") ∧
    rewriteURL "/redirect" "/ns/svc/3000" (goPathDir "/") = "/ns/svc/3000/redirect" ∧
    ("/redirect" : String) ≠ "/ns/svc/3000/redirect" := by
  exact ⟨by rfl, by decide, by decide⟩

/-- C2 (amended): this revision's `proxyRewriter` does not rewrite the
`Location` header: every successful result carries the upstream `Location`
(and `Content-Type`) unchanged; only the body and `Content-Length` are
modified. -/
theorem proxyRewriter_location_unchanged (resp : UpstreamResponse)
    (ctx : Option OrigRequestData) (r : ClientResponse)
    (h : proxyRewriter resp ctx = Except.ok r) :
    r.location = resp.location ∧ r.contentType = resp.contentType := by
  unfold proxyRewriter at h
  by_cases hmt : goParseMediaType resp.contentType ≠ "text/html"
  · simp only [if_pos hmt] at h
    cases h
    exact ⟨rfl, rfl⟩
  · simp only [if_neg hmt] at h
    cases ctx with
    | none => cases h
    | some od =>
      simp only at h
      cases h
      exact ⟨rfl, rfl⟩

/-- Closed instance of the amended C2 at the redirect fixture. -/
theorem proxyRewriter_location_unchanged_witness :
    (⟨"text/html", some "/redirect", none,
      .rewritten "<a href=\x22/ns/svc/3000/root\x22>"⟩ : ClientResponse).location =
      locationProbeResponse.location := by
  exact (proxyRewriter_location_unchanged locationProbeResponse (some locationProbeData)
    ⟨"text/html", some "/redirect", none,
      .rewritten "<a href=\x22/ns/svc/3000/root\x22>"⟩ (by rfl)).1

/-- C10: when the parsed media type of the upstream `Content-Type` is not
exactly `text/html` (including the unparseable case, where it is empty),
`proxyRewriter` succeeds and passes headers — `Content-Length` included —
and body through unchanged, for any context, including a missing one; and
an error (the missing-context error) can only occur when the media type is
`text/html`, because the media-type test precedes the context lookup. -/
theorem proxyRewriter_non_html_passthrough (resp : UpstreamResponse)
    (ctx : Option OrigRequestData) :
    (goParseMediaType resp.contentType ≠ "text/html" →
      proxyRewriter resp ctx =
        Except.ok ⟨resp.contentType, resp.location, resp.contentLength,
          .passthrough resp.bodyTokens⟩) ∧
    (∀ e, proxyRewriter resp ctx = Except.error e →
      goParseMediaType resp.contentType = "text/html" ∧ ctx = none) := by
  constructor
  · intro hmt
    unfold proxyRewriter
    simp [hmt]
  · intro e he
    unfold proxyRewriter at he
    by_cases hmt : goParseMediaType resp.contentType ≠ "text/html"
    · simp [hmt] at he
    · refine ⟨not_not.mp hmt, ?_⟩
      simp only [if_neg hmt] at he
      cases ctx with
      | none => rfl
      | some od => simp at he

/-- Closed instance of C10: a `text/plain` response with a missing context
passes through untouched. -/
theorem proxyRewriter_non_html_passthrough_witness :
    proxyRewriter ⟨"text/plain;charset=utf-8", some "/redirect", some 5, []⟩ none =
      Except.ok ⟨"text/plain;charset=utf-8", some "/redirect", some 5, .passthrough []⟩ := by
  exact (proxyRewriter_non_html_passthrough
    ⟨"text/plain;charset=utf-8", some "/redirect", some 5, []⟩ none).1 (by decide)

/-! ## Claim C8: proxy error handling -/

/-- C8: for a proxy request whose path parses and whose port string parses,
a directory lookup miss makes the handler answer 404, and a service whose
advertised ports contain no TCP port with the parsed number makes `proxy`
fail with `portNotFound` — so nothing is forwarded — and the handler answer
500. -/
theorem proxy_error_handling (dir : List K8sService) (path ns svc portStr dest : String)
    (port : Int)
    (hparse : parseServicePath path = some (ns, svc, portStr, dest))
    (hport : goParseInt32 portStr = some port) :
    (dirGet dir ns svc = none → proxyErrWrapper dir path = .errorResponse 404) ∧
    (∀ sm, dirGet dir ns svc = some sm →
      (¬ ∃ p ∈ sm.ports, p.port = port ∧ p.protocol = K8sProtocol.tcp) →
      proxy dir path = .error (.portNotFound port) ∧
      proxyErrWrapper dir path = .errorResponse 500) := by
  constructor
  · intro hget
    unfold proxyErrWrapper proxy
    simp [hparse, hport, hget, ProxyError.isNotFound]
  · intro sm hget hnone
    have hany : (sm.ports.any fun p => p.port == port && p.protocol == K8sProtocol.tcp) = false := by
      rw [List.any_eq_false]
      intro p hp hcon
      simp only [Bool.and_eq_true, beq_iff_eq] at hcon
      exact hnone ⟨p, hp, hcon.1, hcon.2⟩
    have hproxy : proxy dir path = .error (.portNotFound port) := by
      unfold proxy
      simp [hparse, hport, hget, hany]
    refine ⟨hproxy, ?_⟩
    unfold proxyErrWrapper
    rw [hproxy]
    rfl

/-- Closed instance of C8: with `probeDirectory`, the unknown service
`/ns/other/80/` gives 404, and `/ns/svc/53/` (port 53 is advertised only as
UDP) gives 500. -/
theorem proxy_error_handling_witness :
    proxyErrWrapper probeDirectory "/ns/other/80/" = .errorResponse 404 ∧
    proxyErrWrapper probeDirectory "/ns/svc/53/" = .errorResponse 500 := by
  constructor
  · exact (proxy_error_handling probeDirectory "/ns/other/80/" "ns" "other" "80" "/" 80
      (by decide) (by decide)).1 (by decide)
  · exact ((proxy_error_handling probeDirectory "/ns/svc/53/" "ns" "svc" "53" "/" 53
      (by decide) (by decide)).2
      ⟨"ns", "svc", "10.0.0.1", [⟨"web", .tcp, 80⟩, ⟨"dns", .udp, 53⟩]⟩
      (by decide) (by decide)).2

/-! ## Claim C9: the directory listing -/

theorem strLt_irrefl : ∀ x : List Char, strLt x x = false := by
  intro x
  induction x with
  | nil => rfl
  | cons a as ih => simp [strLt, lt_irrefl a, ih]

theorem strLt_asymm : ∀ x y : List Char, strLt x y = true → strLt y x = false := by
  intro x
  induction x with
  | nil =>
    intro y h
    cases y with
    | nil => simp [strLt] at h
    | cons b bs => simp [strLt]
  | cons a as ih =>
    intro y h
    cases y with
    | nil => simp [strLt] at h
    | cons b bs =>
      by_cases hab : a < b
      · simp [strLt, hab, asymm hab]
      · by_cases hba : b < a
        · simp [strLt, hab, hba] at h
        · simp [strLt, hab, hba] at h ⊢
          exact ih bs h

theorem strLt_trans :
    ∀ x y z : List Char, strLt x y = true → strLt y z = true → strLt x z = true := by
  intro x
  induction x with
  | nil =>
    intro y z h1 h2
    cases y with
    | nil => simp [strLt] at h1
    | cons b bs =>
      cases z with
      | nil => simp [strLt] at h2
      | cons c cs => simp [strLt]
  | cons a as ih =>
    intro y z h1 h2
    cases y with
    | nil => simp [strLt] at h1
    | cons b bs =>
      cases z with
      | nil => simp [strLt] at h2
      | cons c cs =>
        by_cases hab : a < b
        · by_cases hbc : b < c
          · simp [strLt, lt_trans hab hbc]
          · by_cases hcb : c < b
            · simp [strLt, hbc, hcb] at h2
            · have hbceq : b = c := le_antisymm (not_lt.mp hcb) (not_lt.mp hbc)
              subst hbceq
              simp [strLt, hab]
        · by_cases hba : b < a
          · simp [strLt, hab, hba] at h1
          · have habeq : a = b := le_antisymm (not_lt.mp hba) (not_lt.mp hab)
            subst habeq
            simp [strLt, lt_irrefl a] at h1
            by_cases hac : a < c
            · simp [strLt, hac]
            · by_cases hca : c < a
              · simp [strLt, hac, hca] at h2
              · simp [strLt, hac, hca] at h2 ⊢
                exact ih bs cs h1 h2

theorem strLt_trichotomy :
    ∀ x y : List Char, strLt x y = true ∨ strLt y x = true ∨ x = y := by
  intro x
  induction x with
  | nil =>
    intro y
    cases y with
    | nil => exact Or.inr (Or.inr rfl)
    | cons b bs => exact Or.inl rfl
  | cons a as ih =>
    intro y
    cases y with
    | nil => exact Or.inr (Or.inl rfl)
    | cons b bs =>
      rcases lt_trichotomy a b with hab | hab | hab
      · exact Or.inl (by simp [strLt, hab])
      · subst hab
        rcases ih bs with h | h | h
        · exact Or.inl (by simp [strLt, lt_irrefl a, h])
        · exact Or.inr (Or.inl (by simp [strLt, lt_irrefl a, h]))
        · exact Or.inr (Or.inr (by rw [h]))
      · exact Or.inr (Or.inl (by simp [strLt, hab]))

/-- Two strings with equal character lists are equal. -/
theorem str_ext {a b : String} (h : a.data = b.data) : a = b := by
  cases a
  cases b
  exact congrArg String.mk h

theorem svcLess_irrefl (a : K8sService) : svcLess a a = false := by
  unfold svcLess
  simp [strLt_irrefl]

theorem svcLess_asymm (a b : K8sService) (h : svcLess a b = true) : svcLess b a = false := by
  unfold svcLess at h ⊢
  by_cases hns : a.ns = b.ns
  · rw [if_neg (by simp [hns])] at h
    rw [if_neg (by simp [hns.symm])]
    exact strLt_asymm _ _ h
  · rw [if_pos (by simp [hns])] at h
    rw [if_pos (by simp [Ne.symm hns])]
    exact strLt_asymm _ _ h

theorem svcLess_trans (a b c : K8sService) (h1 : svcLess a b = true)
    (h2 : svcLess b c = true) : svcLess a c = true := by
  unfold svcLess at h1 h2 ⊢
  by_cases hab : a.ns = b.ns
  · rw [if_neg (by simp [hab])] at h1
    by_cases hbc : b.ns = c.ns
    · rw [if_neg (by simp [hbc])] at h2
      rw [if_neg (by simp [hab.trans hbc])]
      exact strLt_trans _ _ _ h1 h2
    · rw [if_pos (by simp [hbc])] at h2
      rw [if_pos (by simp [hab ▸ hbc]), hab]
      exact h2
  · rw [if_pos (by simp [hab])] at h1
    by_cases hbc : b.ns = c.ns
    · rw [if_pos (by simp [hbc ▸ hab]), ← hbc]
      exact h1
    · rw [if_pos (by simp [hbc])] at h2
      have hac : a.ns ≠ c.ns := by
        intro he
        rw [he] at h1
        rw [strLt_asymm _ _ h2] at h1
        cases h1
      rw [if_pos (by simp [hac])]
      exact strLt_trans _ _ _ h1 h2

/-- Two services neither of which sorts strictly before the other agree on
namespace and name. -/
theorem svcLess_conn (a b : K8sService) (h1 : svcLess a b = false)
    (h2 : svcLess b a = false) : a.ns = b.ns ∧ a.name = b.name := by
  unfold svcLess at h1 h2
  by_cases hns : a.ns = b.ns
  · refine ⟨hns, ?_⟩
    rw [if_neg (by simp [hns])] at h1
    rw [if_neg (by simp [hns.symm])] at h2
    rcases strLt_trichotomy a.name.data b.name.data with h | h | h
    · rw [h] at h1
      cases h1
    · rw [h] at h2
      cases h2
    · exact str_ext h
  · exfalso
    rw [if_pos (by simp [hns])] at h1
    rw [if_pos (by simp [Ne.symm hns])] at h2
    rcases strLt_trichotomy a.ns.data b.ns.data with h | h | h
    · rw [h] at h1
      cases h1
    · rw [h] at h2
      cases h2
    · exact hns (str_ext h)

theorem svcLess_congr_right (x y z : K8sService) (hns : x.ns = y.ns)
    (hname : x.name = y.name) : svcLess z x = svcLess z y := by
  unfold svcLess
  rw [hns, hname]

theorem svcLess_congr_left (x y z : K8sService) (hns : x.ns = y.ns)
    (hname : x.name = y.name) : svcLess x z = svcLess y z := by
  unfold svcLess
  rw [hns, hname]

instance : IsTotal K8sService svcLe := by
  constructor
  intro a b
  unfold svcLe
  cases hb : svcLess b a with
  | false => exact Or.inl rfl
  | true => exact Or.inr (svcLess_asymm b a hb)

instance : IsTrans K8sService svcLe := by
  constructor
  intro a b c hab hbc
  unfold svcLe at hab hbc ⊢
  cases hca : svcLess c a with
  | false => rfl
  | true =>
    exfalso
    cases hab2 : svcLess a b with
    | false =>
      have hk := svcLess_conn a b hab2 hab
      rw [svcLess_congr_right a b c hk.1 hk.2, hbc] at hca
      cases hca
    | true =>
      cases hbc2 : svcLess b c with
      | false =>
        have hk := svcLess_conn b c hbc2 hbc
        have hba := svcLess_asymm a b hab2
        rw [svcLess_congr_left b c a hk.1 hk.2] at hba
        rw [hba] at hca
        cases hca
      | true =>
        have := svcLess_asymm a c (svcLess_trans a b c hab2 hbc2)
        rw [this] at hca
        cases hca

theorem pairsOf_append (a b : List NamespaceTemplateData) :
    pairsOf (a ++ b) = pairsOf a ++ pairsOf b := by
  simp [pairsOf]

/-- Loop invariant of `rootLoop`: starting from a non-empty accumulator
whose most recent namespace is named `last`, the loop succeeds, its flattened
output extends the accumulator's by one `(namespace, service data)` pair per
remaining item, and its headings extend the accumulator's by `headingsOf`. -/
theorem rootLoop_spec (items : List K8sService) :
    ∀ (last : String) (lastNS : NamespaceTemplateData) (others : List NamespaceTemplateData),
    lastNS.name = last →
    ∃ r, rootLoop items last (lastNS :: others) = some r ∧
      pairsOf r = pairsOf (lastNS :: others).reverse
        ++ items.map (fun s => (s.ns, mkServiceData s)) ∧
      r.map NamespaceTemplateData.name =
        (lastNS :: others).reverse.map NamespaceTemplateData.name ++ headingsOf items last := by
  induction items with
  | nil =>
    intro last lastNS others _
    exact ⟨(lastNS :: others).reverse, rfl, by simp [headingsOf], by simp [headingsOf]⟩
  | cons s rest ih =>
    intro last lastNS others hname
    by_cases hns : s.ns = last
    · obtain ⟨r, hr, hpairs, hnames⟩ := ih s.ns
        { lastNS with services := lastNS.services ++ [mkServiceData s] } others
        (by simp [hname, hns])
      refine ⟨r, ?_, ?_, ?_⟩
      · simp only [rootLoop]
        rw [if_neg (by simp [hns])]
        exact hr
      · rw [hpairs]
        simp [pairsOf_append, pairsOf, hname, hns, headingsOf]
      · rw [hnames]
        simp [headingsOf, hns]
    · obtain ⟨r, hr, hpairs, hnames⟩ := ih s.ns ⟨s.ns, [mkServiceData s]⟩ (lastNS :: others) rfl
      refine ⟨r, ?_, ?_, ?_⟩
      · simp only [rootLoop]
        rw [if_pos (by simp [hns])]
        exact hr
      · rw [hpairs]
        simp [pairsOf_append, pairsOf]
      · rw [hnames]
        simp [headingsOf, hns]

/-- `buildRootData` succeeds whenever no namespace is empty (the Go loop
would index `data.Namespaces[-1]` on an entry with an empty first
namespace), and its output flattens, in order, to the sorted services with
their namespaces, with one heading per run of equal namespaces. -/
theorem buildRootData_spec (items : List K8sService) (h : ∀ s ∈ items, s.ns ≠ "") :
    ∃ r, buildRootData items = some r ∧
      pairsOf r = (sortServices items).map (fun s => (s.ns, mkServiceData s)) ∧
      r.map NamespaceTemplateData.name = headingsOf (sortServices items) "" := by
  unfold buildRootData
  rcases hs : sortServices items with _ | ⟨s, rest⟩
  · exact ⟨[], rfl, by simp [pairsOf], by simp [headingsOf]⟩
  · have hsns : s.ns ≠ "" := by
      apply h
      have hmem : s ∈ sortServices items := by
        rw [hs]
        exact List.mem_cons_self s rest
      exact (List.perm_insertionSort svcLe items).subset hmem
    obtain ⟨r, hr, hpairs, hnames⟩ := rootLoop_spec rest s.ns ⟨s.ns, [mkServiceData s]⟩ [] rfl
    refine ⟨r, ?_, ?_, ?_⟩
    · simp only [rootLoop]
      rw [if_pos (by simp [hsns])]
      exact hr
    · rw [hpairs]
      simp [pairsOf]
    · rw [hnames]
      simp [headingsOf, hsns]

/-- The first heading emitted always differs from the previous namespace. -/
theorem headingsOf_head_ne (items : List K8sService) :
    ∀ last x l', headingsOf items last = x :: l' → x ≠ last := by
  induction items with
  | nil =>
    intro last x l' hcontra
    simp [headingsOf] at hcontra
  | cons s rest ih =>
    intro last x l' hx
    by_cases hns : s.ns = last
    · rw [headingsOf, if_neg (by simp [hns])] at hx
      simpa [hns] using ih s.ns x l' (by simpa using hx)
    · rw [headingsOf, if_pos (by simp [hns])] at hx
      cases hx
      exact hns

/-- Consecutive headings are distinct. -/
theorem headingsOf_chain (items : List K8sService) :
    ∀ last, List.Chain' (fun a b => a ≠ b) (headingsOf items last) := by
  induction items with
  | nil => intro last; simp [headingsOf]
  | cons s rest ih =>
    intro last
    by_cases hns : s.ns = last
    · rw [headingsOf, if_neg (by simp [hns])]
      exact ih s.ns
    · rw [headingsOf, if_pos (by simp [hns])]
      rw [List.singleton_append, List.chain'_cons']
      refine ⟨?_, by simpa using ih s.ns⟩
      intro b hb
      rcases hh : headingsOf rest s.ns with _ | ⟨x, l'⟩
      · rw [hh] at hb
        simp at hb
      · rw [hh] at hb
        simp at hb
        subst hb
        exact (headingsOf_head_ne rest s.ns x l' hh).symm

set_option maxRecDepth 20000 in
/-- C9: the listing data is built from the services sorted ascending
lexicographically on `(namespace, name)`; the built page data flattens, in
order, to exactly those sorted services (only TCP ports kept), under one
heading per run of equal consecutive namespaces, with adjacent headings
distinct; and on the spec's example `{(b,y), (a,z), (a,x)}` the rendered
page shows, in order, namespace `a` with links `/a/x/1/` and `/a/z/3/`,
then namespace `b` with link `/b/y/2/`, and lists no UDP port. -/
theorem rootListing_sorted_grouped :
    (∀ items : List K8sService, List.Sorted svcLe (sortServices items)) ∧
    (∀ items : List K8sService, (∀ s ∈ items, s.ns ≠ "") →
      ∃ r, buildRootData items = some r ∧
        pairsOf r = (sortServices items).map (fun s => (s.ns, mkServiceData s)) ∧
        r.map NamespaceTemplateData.name = headingsOf (sortServices items) "" ∧
        List.Chain' (fun a b => a ≠ b) (r.map NamespaceTemplateData.name)) ∧
    (buildRootData exampleServices = some exampleRootData ∧
      occursInOrder ["Namespace a", "href=\x22/a/x/1/\x22", "href=\x22/a/z/3/\x22",
        "Namespace b", "href=\x22/b/y/2/\x22"] (renderRoot exampleRootData).data = true ∧
      containsSub (renderRoot exampleRootData) "53" = false ∧
      containsSub (renderRoot exampleRootData) "dns" = false) := by
  refine ⟨fun items => List.sorted_insertionSort svcLe items, fun items h => ?_,
    by decide, by decide, by decide, by decide⟩
  obtain ⟨r, hr, hpairs, hnames⟩ := buildRootData_spec items h
  exact ⟨r, hr, hpairs, hnames, hnames ▸ headingsOf_chain (sortServices items) ""⟩

/-- Closed instance of C9's universally quantified part at the example
services. -/
theorem rootListing_sorted_grouped_witness :
    ∃ r, buildRootData exampleServices = some r ∧
      pairsOf r = (sortServices exampleServices).map (fun s => (s.ns, mkServiceData s)) ∧
      r.map NamespaceTemplateData.name = headingsOf (sortServices exampleServices) "" ∧
      List.Chain' (fun a b => a ≠ b) (r.map NamespaceTemplateData.name) :=
  rootListing_sorted_grouped.2.1 exampleServices (by decide)

/-! ## Claim C5: the health-check authentication bypass -/

/-- C5: a request bypasses authentication exactly when its path is the
designated health path `/health`, or its path is `/` and its user agent
contains, case-insensitively, one of the designated probe substrings
(`googlehc/`, `kube-probe/`); in particular the spec's truth table holds. -/
theorem healthBypass_spec :
    (∀ path ua : String, healthBypass path ua = true ↔
      (path = "/health" ∨ (path = "/" ∧
        (containsSub (String.mk (ua.data.map Char.toLower)) "googlehc/" = true ∨
         containsSub (String.mk (ua.data.map Char.toLower)) "kube-probe/" = true)))) ∧
    healthBypass "/health" "SomeAgent/1.0" = true ∧
    healthBypass "/" "kube-probe/1.17" = true ∧
    healthBypass "/" "GoogleHC/1.0" = true ∧
    healthBypass "/other" "GoogleHC/1.0" = false := by
  refine ⟨fun path ua => ?_, by decide, by decide, by decide, by decide⟩
  unfold healthBypass
  simp [Bool.or_eq_true, Bool.and_eq_true, beq_iff_eq]

end KubeWebProxy
